import Mathlib

/-
Verification development for the ffplayout playout engine (ffplayout.py).

Shallow embedding conventions:
  * Python floats are modelled as exact rationals.
  * External effects are parameters: the filesystem is a predicate
    fs : String -> Bool (os.path.isfile), glob results and the current date
    are passed in as values.
  * Logging and mail are modelled as explicit event lists returned next to
    the ordinary result; numeric text rendering inside command strings uses
    toString of the exact rational where Python formats a float.
-/

set_option linter.unusedVariables false

/-- Rendering of a rational into an argument string. Python prints floats;
here the exact rational is printed instead, which keeps every argument-vector
shape identical while abstracting the decimal rendering. -/
def rstr (q : ℚ) : String := toString q

/-- Python int() truncation toward zero on a rational. -/
def pyTrunc (q : ℚ) : ℤ := q.num.tdiv (q.den : ℤ)

/-- Python substring containment test (the operator in on two strings). -/
def pyIn (needle haystack : String) : Bool := decide (needle.data <:+: haystack.data)

/-- Python str.join with a comma separator, as used by ','.join(chain). -/
def joinComma : List String → String
  | [] => ""
  | [x] => x
  | x :: xs => x ++ "," ++ joinComma xs

/-- Lexicographic comparison of code-point lists, the order Python uses to
sort strings. -/
def lexLe : List Char → List Char → Bool
  | [], _ => true
  | _ :: _, [] => false
  | a :: xs, b :: ys => if a < b then true else if b < a then false else lexLe xs ys

/-- Python sorted on a list of strings (a stable sort in lexicographic
order), modelled with insertion sort. -/
def pySorted (l : List String) : List String :=
  List.insertionSort (fun a b => lexLe a.data b.data = true) l

/-- math.isclose(a, b, abs_tol) with Python's default relative tolerance of
1e-09: abs(a-b) <= max(rel_tol*max(abs(a),abs(b)), abs_tol). -/
def math_isclose (a b abs_tol : ℚ) : Prop :=
  |a - b| ≤ max (1 / 1000000000 * max |a| |b|) abs_tol

instance (a b t : ℚ) : Decidable (math_isclose a b t) := by
  unfold math_isclose; infer_instance

/-- The _pre_comp configuration namespace (plus _storage/_playlist fields are
passed separately where needed). protocols is a single comma-separated
string, as in the config file. -/
structure PreComp where
  w : ℤ
  h : ℤ
  aspect : ℚ
  fps : ℤ
  add_logo : Bool
  logo : String
  opacity : String
  logo_filter : String
  add_loudnorm : Bool
  loud_i : ℚ
  loud_tp : ℚ
  loud_lra : ℚ
  protocols : String

/-- A probed video stream (MediaProbe.load): aspect and fps are the derived
fields, field_order and duration are present only when ffprobe reports them. -/
structure VStream where
  width : ℤ
  height : ℤ
  aspect : ℚ
  fps : ℚ
  field_order : Option String
  duration : Option ℚ
deriving DecidableEq

instance : Inhabited VStream := ⟨⟨0, 0, 0, 0, none, none⟩⟩

/-- A probed audio stream; only the optional duration field is consulted by
the filter builder. A failed probe appends a null entry, modelled as a
stream with no duration. -/
structure AStream where
  duration : Option ℚ
deriving DecidableEq

/-- The MediaProbe record as consumed by the filter builder. -/
structure Probe where
  src : String
  audio : List AStream
  video : List VStream

/-- Log messages of the timed-source cluster, modelled structurally (the
constructor arguments are the values Python would format into the text). -/
inductive Msg
  | loopInfo (source : String) (count : ℤ) (total : ℚ)
  | seekLiveWarn (src : String)
  | seekLoopWarn (src : String)
  | clipNotExistErr (src : String)
  | overTimeInfo (new_length : ℚ)
  | skipShortClipInfo (src : String)
  | notLongEnoughErr (missing_secs : ℚ)
deriving DecidableEq

/-- seek_in: prepend -ss when seeking into the clip. -/
def seek_in (seek : ℚ) : List String :=
  if seek > 0 then ["-ss", rstr seek] else []

/-- set_length: emit -t out-seek when the clip is cut. -/
def set_length (duration seek out : ℚ) : List String :=
  if out < duration then ["-t", rstr (out - seek)] else []

/-- loop_input: loop the source ceil(target/src) times, capped by -t. -/
def loop_input (source : String) (src_duration target_duration : ℚ) :
    List String × List Msg :=
  let loop_count := ⌈target_duration / src_duration⌉
  (["-stream_loop", toString loop_count, "-i", source, "-t", rstr target_duration],
    [Msg.loopInfo source loop_count target_duration])

/-- gen_dummy: black color source plus pink noise audio of the given
duration. -/
def gen_dummy (pc : PreComp) (duration : ℚ) : List String :=
  ["-f", "lavfi", "-i",
    "color=c=#121212:s=" ++ toString pc.w ++ "x" ++ toString pc.h ++
      ":d=" ++ rstr duration ++ ":r=" ++ toString pc.fps ++
      ",format=pix_fmts=yuv420p",
    "-f", "lavfi", "-i",
    "anoisesrc=d=" ++ rstr duration ++ ":c=pink:r=48000:a=0.05"]

/-- Scheme prefix of a source: src.split('://')[0]. -/
def src_scheme (src : String) : String := (src.splitOn "://").headI

/-- src_or_dummy: live input, file input (possibly looped), or dummy when
the path does not exist; returns the argument list and the emitted log
messages. -/
def src_or_dummy (pc : PreComp) (fs : String → Bool) (src : String)
    (dur seek out : ℚ) : List String × List Msg :=
  if src ≠ "" ∧ pyIn (src_scheme src) pc.protocols then
    (["-i", src] ++ set_length dur seek out,
      if seek > 0 then [Msg.seekLiveWarn src] else [])
  else if src ≠ "" ∧ fs src then
    if out > dur then
      if seek > 0 then
        (["-i", src] ++ set_length dur seek (out - seek), [Msg.seekLoopWarn src])
      else
        loop_input src dur out
    else
      (seek_in seek ++ ["-i", src] ++ set_length dur seek out, [])
  else
    (gen_dummy pc (out - seek), [Msg.clipNotExistErr src])

/-- Result of the timed-source functions: the optional command, the (possibly
adjusted) seek and out, the next-playlist flag and the log trace. -/
structure SrcResult where
  src_cmd : Option (List String)
  seek : ℚ
  out : ℚ
  next_playlist : Bool
  logs : List Msg

/-- handle_list_end: policy for the last clip of the playlist window. -/
def handle_list_end (pc : PreComp) (fs : String → Bool) (time_delta ref_time : ℚ)
    (src : String) (begin dur seek out : ℚ) : SrcResult :=
  let new_length := ref_time - (begin + time_delta)
  let new_out0 := if seek > 0 then seek + new_length else new_length
  let capped : ℚ × List Msg :=
    if new_out0 > dur then (dur, []) else (new_out0, [Msg.overTimeInfo new_length])
  let new_out := capped.1
  let logs := capped.2
  if new_length > 3 then
    let sd := src_or_dummy pc fs src dur seek new_out
    ⟨some sd.1, seek, new_out, true, logs ++ sd.2⟩
  else if new_length > 1 then
    ⟨some (gen_dummy pc new_length), seek, new_out, true, logs⟩
  else if new_length > 0 then
    ⟨none, seek, new_out, true, logs ++ [Msg.skipShortClipInfo src]⟩
  else
    let sd := src_or_dummy pc fs src dur seek out
    ⟨some sd.1, seek, out, false,
      logs ++ sd.2 ++ [Msg.notLongEnoughErr |new_length - dur|]⟩

/-- deinterlace_filter: yadif when a field_order is reported and is not
progressive. -/
def deinterlace_filter (probe : Probe) : List String :=
  match probe.video.headI.field_order with
  | some fo => if fo ≠ "progressive" then ["yadif=0:-1:0"] else []
  | none => []

/-- pad_filter: pillarbox or letterbox when source and target aspect differ
beyond the isclose tolerance. -/
def pad_filter (pc : PreComp) (probe : Probe) : List String :=
  if ¬ math_isclose probe.video.headI.aspect pc.aspect 0.03 then
    if probe.video.headI.aspect < pc.aspect then
      ["pad=ih*" ++ toString pc.w ++ "/" ++ toString pc.h ++
        "/sar:ih:(ow-iw)/2:(oh-ih)/2"]
    else if probe.video.headI.aspect > pc.aspect then
      ["pad=iw:iw*" ++ toString pc.h ++ "/" ++ toString pc.w ++
        "/sar:(ow-iw)/2:(oh-ih)/2"]
    else []
  else []

/-- fps_filter: frame-rate conversion when the probed fps differs from the
target. -/
def fps_filter (pc : PreComp) (probe : Probe) : List String :=
  if probe.video.headI.fps ≠ (pc.fps : ℚ) then
    ["framerate=fps=" ++ toString pc.fps]
  else []

/-- scale_filter: scale on resolution mismatch, and setdar when the aspect
differs beyond the isclose tolerance. -/
def scale_filter (pc : PreComp) (probe : Probe) : List String :=
  (if probe.video.headI.width ≠ pc.w ∨ probe.video.headI.height ≠ pc.h then
    ["scale=" ++ toString pc.w ++ ":" ++ toString pc.h]
  else []) ++
  (if ¬ math_isclose probe.video.headI.aspect pc.aspect 0.03 then
    ["setdar=dar=" ++ rstr pc.aspect]
  else [])

/-- fade_filter: fade in when seeked, fade out when cut before the natural
end; track is the empty string for video and the letter a for audio. -/
def fade_filter (duration seek out : ℚ) (track : String) : List String :=
  (if seek > 0 then [track ++ "fade=in:st=0:d=0.5"] else []) ++
  (if out ≠ duration then
    [track ++ "fade=out:st=" ++ rstr (out - seek - 1) ++ ":d=1.0"]
  else [])

/-- overlay_filter: the logo stage; pass-through when the logo is disabled,
missing on disk, or the clip is an advertisement. -/
def overlay_filter (pc : PreComp) (fs : String → Bool) (duration : ℚ)
    (ad ad_last ad_next : Bool) : String :=
  if pc.add_logo ∧ fs pc.logo ∧ ¬ ad then
    let opacity := "format=rgba,colorchannelmixer=aa=" ++ pc.opacity
    let loop := "loop=loop=" ++ rstr (duration * (pc.fps : ℚ)) ++ ":size=1:start=0"
    let logo_chain :=
      ["movie=" ++ pc.logo ++ "," ++ loop ++ "," ++ opacity] ++
        (if ad_last then ["fade=in:st=0:d=1.0:alpha=1"] else []) ++
        (if ad_next then
          ["fade=out:st=" ++ rstr (duration - 1) ++ ":d=1.0:alpha=1"]
        else [])
    joinComma logo_chain ++ "[l];[v][l]" ++ pc.logo_filter ++ "[logo]"
  else "[v]null[logo]"

/-- add_audio: generated silent source when the probe reports no audio
stream (the accompanying warning log is elided here). -/
def add_audio (probe : Probe) (duration : ℚ) : List String :=
  if probe.audio = [] then
    ["aevalsrc=0:channel_layout=2:duration=" ++ rstr duration ++ ":sample_rate=48000"]
  else []

/-- add_loudnorm: single-pass loudness normalisation when enabled and audio
is present. -/
def add_loudnorm (pc : PreComp) (probe : Probe) : List String :=
  let a_samples := pyTrunc (192000 / (pc.fps : ℚ))
  if probe.audio ≠ [] ∧ pc.add_loudnorm then
    ["loudnorm=I=" ++ rstr pc.loud_i ++ ":TP=" ++ rstr pc.loud_tp ++
      ":LRA=" ++ rstr pc.loud_lra ++ ",asetnsamples=n=" ++ toString a_samples]
  else []

/-- extend_audio: apad when the first audio stream is more than 0.3 s shorter
than the clip duration. -/
def extend_audio (probe : Probe) (duration : ℚ) : List String :=
  match probe.audio with
  | [] => []
  | a :: _ =>
    match a.duration with
    | some adur =>
      if duration > adur + 0.3 then ["apad=whole_dur=" ++ rstr duration] else []
    | none => []

/-- extend_video: tpad when the probed video stream is more than 0.3 s shorter
than the clip duration and the clip is cut. -/
def extend_video (probe : Probe) (duration target_duration : ℚ) : List String :=
  match probe.video.headI.duration with
  | some vdur =>
    if target_duration < duration ∧ duration > vdur + 0.3 then
      ["tpad=stop_mode=add:stop_duration=" ++ rstr (duration - vdur)]
    else []
  | none => []

/-- The video chain assembled by build_filtergraph for a real (non-dummy)
source. -/
def video_chain (pc : PreComp) (probe : Probe) (duration seek out : ℚ) :
    List String :=
  deinterlace_filter probe ++ pad_filter pc probe ++ fps_filter pc probe ++
    scale_filter pc probe ++ extend_video probe duration (out - seek) ++
    fade_filter duration seek out ""

/-- The audio chain assembled by build_filtergraph for a real (non-dummy)
source: the generated silent line, or anull plus the optional loudnorm, apad
and fade stages. -/
def audio_chain (pc : PreComp) (probe : Probe) (duration seek out : ℚ) :
    List String :=
  let line := add_audio probe (out - seek)
  if line = [] then
    "[0:a]anull" :: (add_loudnorm pc probe ++ extend_audio probe (out - seek) ++
      fade_filter duration seek out "a")
  else line

/-- build_filtergraph: the full complex-filter argument vector with stream
maps. -/
def build_filtergraph (pc : PreComp) (fs : String → Bool) (duration seek out : ℚ)
    (ad ad_last ad_next dummy : Bool) (probe : Probe) : List String :=
  let seek := if out > duration then 0 else seek
  let vchain := if dummy then [] else video_chain pc probe duration seek out
  let achain := if dummy then [] else audio_chain pc probe duration seek out
  let video_filter := if vchain ≠ [] then joinComma vchain ++ "[v]" else "null[v]"
  let logo_filter := overlay_filter pc fs (out - seek) ad ad_last ad_next
  let video_filter_args :=
    ["-filter_complex", "[0:v]" ++ video_filter ++ ";" ++ logo_filter]
  let video_map := ["-map", "[logo]"]
  let audio_args : List String × List String :=
    if achain ≠ [] then (["-filter_complex", joinComma achain ++ "[a]"], ["-map", "[a]"])
    else ([], ["-map", "0:a"])
  if dummy then video_filter_args ++ video_map ++ ["-map", "1:a"]
  else video_filter_args ++ audio_args.1 ++ video_map ++ audio_args.2

/-- MediaStore.fill: extend the store with the glob results for every
configured extension (passed here as the already-concatenated list globbed)
and re-sort. -/
def MediaStore.fill (globbed store : List String) : List String :=
  pySorted (store ++ globbed)

/-- GetSource.next in shuffle mode: the emitted clips for a given stream of
random choices. n is the store size; fifo is the last_played history. Each
iteration first pops the oldest history entry when the history is longer
than half the store, then emits the chosen clip only when it is not in the
history. -/
def shuffle_emits (n : ℕ) : List String → List String → List String
  | _, [] => []
  | fifo, c :: cs =>
    let f := if n < 2 * fifo.length then fifo.tail else fifo
    if c ∈ f then shuffle_emits n f cs
    else c :: shuffle_emits n (f ++ [c]) cs

/-- The GetSourceIter fields touched by get_category and
check_for_next_playlist. -/
structure IterState where
  next_playlist : Bool
  begin : ℚ
  last_time : ℚ
  list_date : String
  last_mod_time : ℚ
  src : String
  seek : ℚ
  out : ℚ
  duration : ℚ
  ad : Bool
  ad_last : Bool
  ad_next : Bool
  first : Bool
  last : Bool
  is_dummy : Bool

/-- check_for_next_playlist: update last_time from the next_playlist flag;
playlist_length is None when the config leaves the length unset, and today
is the value of get_date(False). -/
def check_for_next_playlist (playlist_length : Option ℚ) (playlist_start : ℚ)
    (today : String) (st : IterState) : IterState :=
  if ¬ st.next_playlist then
    { st with last_time := st.begin }
  else if st.next_playlist ∧ playlist_length ≠ some 86400 then
    { st with last_time := 86400 * 2 }
  else
    { st with list_date := today, last_mod_time := 0,
              last_time := playlist_start - 1 }

/-- A playlist entry as consulted by get_category: category is None when the
JSON node has no category key. -/
structure ClipNode where
  source : String
  category : Option String

/-- get_category: set the ad, ad_last and ad_next flags from the categories
at index-1, index and index+1; does nothing when the current node has no
category key. A neighbouring node without a category key is read as noad
here (the source would raise KeyError there). -/
def get_category (program : List ClipNode) (index : ℕ) (node : ClipNode)
    (st : IterState) : IterState :=
  match node.category with
  | none => st
  | some cat =>
    let last_category :=
      if 1 ≤ index then (((program.get? (index - 1)).bind ClipNode.category).getD "noad")
      else "noad"
    let next_category :=
      if index + 2 ≤ program.length then
        (((program.get? (index + 1)).bind ClipNode.category).getD "noad")
      else "noad"
    { st with
      ad := cat == "advertisement",
      ad_last := last_category == "advertisement",
      ad_next := next_category == "advertisement" }

/-- Observable notification events: a log line or a mail with the given
body text. -/
inductive Event
  | log (text : String)
  | mail (text : String)
deriving DecidableEq

/-- Mailer.send_mail: a mail goes out only when a recipient is configured
(the SMTP session itself is external). -/
def send_mail (recip : String) (msg : String) : List Event :=
  if recip ≠ "" then [Event.mail msg] else []

/-- Mailer.error: severity gate for error messages. -/
def mailer_error (level recip : String) (msg : String) : List Event :=
  if level ∈ (["INFO", "WARNING", "ERROR"] : List String) then send_mail recip msg
  else []

/-- Messenger.error: log the message (newlines flattened) and hand it to the
mailer. -/
def messenger_error (level recip : String) (msg : String) : List Event :=
  Event.log (msg.replace "\n" " ") :: mailer_error level recip msg

/-- The last-error de-duplication state of GetSourceIter. -/
structure ErrState where
  last_error : String
  timestamp : ℚ

/-- Error notification tail of GetSourceIter.eof_handling (the two
messenger.error calls guarded by the 3600 s / last_error test); now stands
for both get_time('stamp') reads of the instant. -/
def eof_error_notify (level recip : String) (now : ℚ) (st : ErrState)
    (message json_file : String) : ErrState × List Event :=
  if now - st.timestamp > 3600 ∧ message ≠ st.last_error then
    (⟨message, now⟩,
      messenger_error level recip (message ++ "\n" ++ json_file) ++
        messenger_error level recip (message ++ " " ++ json_file))
  else
    (st, messenger_error level recip (message ++ " " ++ json_file))

/-- Mail bodies contained in an event trace. -/
def mails : List Event → List String
  | [] => []
  | Event.mail t :: es => t :: mails es
  | Event.log _ :: es => mails es

/-
Helper lemmas and sample values shared by several results.
-/

theorem sdata_append (s t : String) : (s ++ t).data = s.data ++ t.data := rfl

/-- Appending a space-separated pair never coincides with the newline-separated
pair of the same strings. -/
theorem sep_space_ne_newline (m f : String) : m ++ " " ++ f ≠ m ++ "\n" ++ f := by
  intro h
  have h2 : (m ++ " " ++ f).data = (m ++ "\n" ++ f).data := congrArg String.data h
  simp only [sdata_append] at h2
  rw [List.append_assoc, List.append_assoc] at h2
  have h3 : (' ' :: f.data) = ('\n' :: f.data) := List.append_cancel_left h2
  injection h3 with h4
  exact absurd h4 (by decide)

/-- A sample configuration used for concrete evaluations. -/
def samplePC : PreComp :=
  ⟨1024, 576, 1.778, 25, false, "logo.png", "0.7", "null", false, -23, -3, 7,
    "http,https,rtmp,rtsp,srt,udp,tcp"⟩

/-- A sample iterator state used for concrete evaluations. -/
def sampleIter : IterState :=
  ⟨true, 100, 0, "2019-03-05", 5, "clip.mp4", 0, 20, 20,
    true, false, true, false, false, false⟩

/-- C10: when the node has no category key, get_category leaves the ad flags
(and the whole iterator state) unchanged, and on any node it never touches a
field other than ad, ad_last and ad_next. -/
theorem get_category_frame (program : List ClipNode) (index : ℕ) (node : ClipNode)
    (st : IterState) :
    (node.category = none → get_category program index node st = st) ∧
    ((get_category program index node st).next_playlist = st.next_playlist ∧
     (get_category program index node st).begin = st.begin ∧
     (get_category program index node st).last_time = st.last_time ∧
     (get_category program index node st).list_date = st.list_date ∧
     (get_category program index node st).last_mod_time = st.last_mod_time ∧
     (get_category program index node st).src = st.src ∧
     (get_category program index node st).seek = st.seek ∧
     (get_category program index node st).out = st.out ∧
     (get_category program index node st).duration = st.duration ∧
     (get_category program index node st).first = st.first ∧
     (get_category program index node st).last = st.last ∧
     (get_category program index node st).is_dummy = st.is_dummy) := by
  unfold get_category
  cases h : node.category with
  | none => simp
  | some cat => simp

/-- C10 witness: a concrete node without a category key passes through
get_category with the ad flag still raised. -/
theorem get_category_frame_witness :
    get_category [] 0 ⟨"x.mp4", none⟩ sampleIter = sampleIter :=
  (get_category_frame [] 0 ⟨"x.mp4", none⟩ sampleIter).1 rfl

/-- C8 counterexample: with a configured playlist length of 90000 (greater
than 86400, not less) and next_playlist set, the code takes the freeze branch
last_time := 2*86400 instead of the reset branch last_time := day_start - 1
that the claim predicts for lengths not below 86400. -/
theorem check_for_next_playlist_counterexample :
    (check_for_next_playlist (some 90000) 21600 "2019-03-06" sampleIter).last_time
        = 86400 * 2 ∧
    ¬ ((check_for_next_playlist (some 90000) 21600 "2019-03-06"
        sampleIter).last_time = 21600 - 1) := by
  refine ⟨?_, ?_⟩ <;>
    · simp [check_for_next_playlist, sampleIter]
      try norm_num

/-- C8 amended: last_time := begin when next_playlist is false; last_time :=
2*86400 when next_playlist is true and the configured playlist length is NOT
EQUAL to 86400 (including unset and greater values); only when next_playlist
is true and the length equals 86400 are list_date and last_mod_time reset and
last_time := day_start - 1. -/
theorem check_for_next_playlist_spec (playlist_length : Option ℚ)
    (playlist_start : ℚ) (today : String) (st : IterState) :
    (st.next_playlist = false →
      (check_for_next_playlist playlist_length playlist_start today st).last_time
          = st.begin ∧
      (check_for_next_playlist playlist_length playlist_start today st).list_date
          = st.list_date ∧
      (check_for_next_playlist playlist_length playlist_start today st).last_mod_time
          = st.last_mod_time) ∧
    (st.next_playlist = true → playlist_length ≠ some 86400 →
      (check_for_next_playlist playlist_length playlist_start today st).last_time
          = 2 * 86400 ∧
      (check_for_next_playlist playlist_length playlist_start today st).list_date
          = st.list_date ∧
      (check_for_next_playlist playlist_length playlist_start today st).last_mod_time
          = st.last_mod_time) ∧
    (st.next_playlist = true → playlist_length = some 86400 →
      (check_for_next_playlist playlist_length playlist_start today st).list_date
          = today ∧
      (check_for_next_playlist playlist_length playlist_start today st).last_mod_time
          = 0 ∧
      (check_for_next_playlist playlist_length playlist_start today st).last_time
          = playlist_start - 1) := by
  refine ⟨fun h => ?_, fun h hne => ?_, fun h he => ?_⟩
  · simp [check_for_next_playlist, h]
  · simp [check_for_next_playlist, h, hne]
    ring
  · simp [check_for_next_playlist, h, he]

/-- C8 witness: the reset branch at playlist length 86400. -/
theorem check_for_next_playlist_spec_witness :
    (check_for_next_playlist (some 86400) 21600 "2019-03-06" sampleIter).list_date
        = "2019-03-06" ∧
    (check_for_next_playlist (some 86400) 21600 "2019-03-06"
        sampleIter).last_mod_time = 0 ∧
    (check_for_next_playlist (some 86400) 21600 "2019-03-06" sampleIter).last_time
        = 21600 - 1 :=
  (check_for_next_playlist_spec (some 86400) 21600 "2019-03-06" sampleIter).2.2
    rfl rfl

/-- C5 counterexample: a repeat of the same message 100 s after the last
notification still produces a mail, because the second messenger.error call
in eof_handling is unconditional. -/
theorem eof_error_notify_counterexample :
    mails (eof_error_notify "ERROR" "admin@example.org" 4100
      ⟨"Playlist not exist:", 4000⟩ "Playlist not exist:" "list.json").2 ≠ [] := by
  norm_num [eof_error_notify, messenger_error, mailer_error, send_mail, mails]

/-- C5 amended: within 3600 s of the last guarded notification (or when the
message equals the last guarded message) the guarded newline-formatted mail is
not emitted and the de-dup state is unchanged, but the unguarded error of
every occurrence is still logged. -/
theorem eof_error_notify_suppression (level recip : String) (now : ℚ)
    (st : ErrState) (message json_file : String)
    (h : now - st.timestamp ≤ 3600 ∨ message = st.last_error) :
    (eof_error_notify level recip now st message json_file).1 = st ∧
    Event.mail (message ++ "\n" ++ json_file) ∉
      (eof_error_notify level recip now st message json_file).2 ∧
    Event.log ((message ++ " " ++ json_file).replace "\n" " ") ∈
      (eof_error_notify level recip now st message json_file).2 := by
  have hcond : ¬ (now - st.timestamp > 3600 ∧ message ≠ st.last_error) := by
    rcases h with h | h
    · exact fun hc => absurd hc.1 (not_lt.mpr h)
    · exact fun hc => hc.2 h
  unfold eof_error_notify
  rw [if_neg hcond]
  refine ⟨rfl, ?_, ?_⟩
  · unfold messenger_error mailer_error send_mail
    split_ifs with h1 h2
    · simp only [List.mem_cons, List.mem_singleton]
      rintro (h3 | h3 | h3)
      · exact Event.noConfusion h3
      · exact sep_space_ne_newline message json_file
          (Event.mail.inj h3).symm
      · exact absurd h3 (List.not_mem_nil _)
    · simp
    · simp
  · unfold messenger_error
    exact List.mem_cons_self _ _

/-- C5 witness: a concrete suppressed repetition still logs. -/
theorem eof_error_notify_suppression_witness :
    (eof_error_notify "ERROR" "admin@example.org" 100 ⟨"", 0⟩
      "Playlist not exist:" "list.json").1 = (⟨"", 0⟩ : ErrState) ∧
    Event.mail ("Playlist not exist:" ++ "\n" ++ "list.json") ∉
      (eof_error_notify "ERROR" "admin@example.org" 100 ⟨"", 0⟩
        "Playlist not exist:" "list.json").2 ∧
    Event.log (("Playlist not exist:" ++ " " ++ "list.json").replace "\n" " ") ∈
      (eof_error_notify "ERROR" "admin@example.org" 100 ⟨"", 0⟩
        "Playlist not exist:" "list.json").2 :=
  eof_error_notify_suppression "ERROR" "admin@example.org" 100 ⟨"", 0⟩
    "Playlist not exist:" "list.json" (Or.inl (by norm_num))

/-- C2 counterexample: at begin=100, out=30, time_delta=0, day_start+target=50
(the handler guard begin+out+delta > day_start+target holds), seek=0 and
duration=30, the handler returns new_out = out = 30, while the claim demands
new_out - 0 = ((day_start+target) - (begin+delta)) clipped to [0, 30] = 0. -/
theorem handle_list_end_counterexample :
    (100 + 30 + 0 > (50 : ℚ)) ∧
    (handle_list_end samplePC (fun _ => false) 0 50 "a.mp4" 100 30 0 30).out = 30 ∧
    ¬ ((handle_list_end samplePC (fun _ => false) 0 50 "a.mp4" 100 30 0 30).out - 0
        = max 0 (min (50 - (100 + 0)) 30)) := by
  refine ⟨by norm_num, ?_, ?_⟩ <;>
    · norm_num [handle_list_end]

/-- C2 amended: the returned new_out equals
(seek when seek > 0, else 0) + (day_start+target) - (begin+delta), capped
above at duration, whenever (day_start+target) - (begin+delta) is positive;
when that quantity is not positive the handler resets new_out to the clip's
original out (there is no clipping to the lower bound 0 and no subtraction of
seek on the returned value). -/
theorem handle_list_end_new_out (pc : PreComp) (fs : String → Bool)
    (time_delta ref_time : ℚ) (src : String) (begin dur seek out : ℚ) :
    (handle_list_end pc fs time_delta ref_time src begin dur seek out).out =
      if 0 < ref_time - (begin + time_delta) then
        min ((if seek > 0 then seek else 0) + (ref_time - (begin + time_delta))) dur
      else out := by
  simp only [handle_list_end]
  split_ifs with h1 h2 h3 h4 h5 <;> simp_all <;> linarith

/-- C3: the four cases of handle_list_end, with
remaining = (day_start+target) - (begin+delta): truncate via src_or_dummy
when remaining > 3; a dummy of length remaining when 1 < remaining <= 3; no
command when 0 < remaining <= 1; and the full clip with next_playlist = false
and the logged deficit when remaining <= 0. -/
theorem handle_list_end_cases (pc : PreComp) (fs : String → Bool)
    (time_delta ref_time : ℚ) (src : String) (begin dur seek out : ℚ) :
    (ref_time - (begin + time_delta) > 3 →
      (handle_list_end pc fs time_delta ref_time src begin dur seek out).src_cmd =
        some (src_or_dummy pc fs src dur seek
          (handle_list_end pc fs time_delta ref_time src begin dur seek out).out).1 ∧
      (handle_list_end pc fs time_delta ref_time src begin dur seek
          out).next_playlist = true) ∧
    (1 < ref_time - (begin + time_delta) ∧ ref_time - (begin + time_delta) ≤ 3 →
      (handle_list_end pc fs time_delta ref_time src begin dur seek out).src_cmd =
        some (gen_dummy pc (ref_time - (begin + time_delta))) ∧
      (handle_list_end pc fs time_delta ref_time src begin dur seek
          out).next_playlist = true) ∧
    (0 < ref_time - (begin + time_delta) ∧ ref_time - (begin + time_delta) ≤ 1 →
      (handle_list_end pc fs time_delta ref_time src begin dur seek out).src_cmd =
        none ∧
      (handle_list_end pc fs time_delta ref_time src begin dur seek
          out).next_playlist = true) ∧
    (ref_time - (begin + time_delta) ≤ 0 →
      (handle_list_end pc fs time_delta ref_time src begin dur seek out).src_cmd =
        some (src_or_dummy pc fs src dur seek out).1 ∧
      (handle_list_end pc fs time_delta ref_time src begin dur seek out).out = out ∧
      (handle_list_end pc fs time_delta ref_time src begin dur seek
          out).next_playlist = false ∧
      Msg.notLongEnoughErr |ref_time - (begin + time_delta) - dur| ∈
        (handle_list_end pc fs time_delta ref_time src begin dur seek out).logs) := by
  refine ⟨fun h => ?_, fun h => ?_, fun h => ?_, fun h => ?_⟩
  · simp only [handle_list_end]
    rw [if_pos h]
    exact ⟨rfl, rfl⟩
  · simp only [handle_list_end]
    rw [if_neg (not_lt.mpr h.2), if_pos h.1]
    exact ⟨rfl, rfl⟩
  · simp only [handle_list_end]
    rw [if_neg (not_lt.mpr (by linarith [h.2] : ref_time - (begin + time_delta) ≤ 3)),
      if_neg (not_lt.mpr h.2), if_pos h.1]
    exact ⟨rfl, rfl⟩
  · simp only [handle_list_end]
    rw [if_neg (not_lt.mpr (by linarith : ref_time - (begin + time_delta) ≤ 3)),
      if_neg (not_lt.mpr (by linarith : ref_time - (begin + time_delta) ≤ 1)),
      if_neg (not_lt.mpr h)]
    refine ⟨rfl, rfl, rfl, ?_⟩
    simp

/-- C3 witness: with remaining = 2 the handler emits a dummy of length 2 and
signals the next playlist. -/
theorem handle_list_end_cases_witness :
    (handle_list_end samplePC (fun _ => false) 1 50 "a.mp4" 47 10 0 10).src_cmd =
      some (gen_dummy samplePC (50 - (47 + 1))) ∧
    (handle_list_end samplePC (fun _ => false) 1 50 "a.mp4" 47 10 0
        10).next_playlist = true :=
  (handle_list_end_cases samplePC (fun _ => false) 1 50 "a.mp4" 47 10 0 10).2.1
    ⟨by norm_num, by norm_num⟩

/-- C6 counterexample: with a single globbed path, a second fill() call
duplicates it, so the store ordering after two calls differs from the one
after the first call. -/
theorem fill_counterexample :
    MediaStore.fill ["a.mp4"] (MediaStore.fill ["a.mp4"] []) ≠
      MediaStore.fill ["a.mp4"] [] := by decide

/-- C6 amended: fill() is idempotent on the set of stored paths but not on the
sequence: the second call appends the directory contents once more before
re-sorting, so every path's multiplicity grows by its glob multiplicity (the
sequences therefore agree exactly when the glob result is empty). -/
theorem fill_twice_count (globbed store : List String) (x : String) :
    List.count x (MediaStore.fill globbed (MediaStore.fill globbed store)) =
      List.count x (MediaStore.fill globbed store) + List.count x globbed := by
  unfold MediaStore.fill pySorted
  have h1 := (List.perm_insertionSort (fun a b => lexLe a.data b.data = true)
    ((List.insertionSort (fun a b => lexLe a.data b.data = true)
      (store ++ globbed)) ++ globbed)).count_eq x
  rw [h1, List.count_append]

/-
String head-character helpers used to separate filter strings from option
names in argument vectors.
-/

/-- First character of a string. -/
def headChar (s : String) : Option Char := s.data.head?

theorem ne_of_headChar {s t : String} (h : headChar s ≠ headChar t) : s ≠ t :=
  fun he => h (he ▸ rfl)

theorem headChar_append {s : String} {c : Char} (t : String)
    (h : headChar s = some c) : headChar (s ++ t) = some c := by
  unfold headChar at *
  rw [sdata_append]
  cases hd : s.data with
  | nil => rw [hd] at h; simp at h
  | cons a l => rw [hd] at h; simpa using h

theorem headChar_joinComma_cons {x : String} {c : Char} (xs : List String)
    (h : headChar x = some c) : headChar (joinComma (x :: xs)) = some c := by
  cases xs with
  | nil => exact h
  | cons y ys => exact headChar_append _ (headChar_append _ h)

/-- Occurrence count of an argument in an argument vector. -/
def countArg (a : String) : List String → ℕ
  | [] => 0
  | x :: xs => (if x = a then 1 else 0) + countArg a xs

/-- The audio chain of a real source is never empty, and the string it joins
to starts with the letter a (generated silent source) or an opening bracket
(the anull chain). -/
theorem audio_chain_head (pc : PreComp) (probe : Probe) (d s o : ℚ) :
    audio_chain pc probe d s o ≠ [] ∧
    (headChar (joinComma (audio_chain pc probe d s o)) = some 'a' ∨
     headChar (joinComma (audio_chain pc probe d s o)) = some '[') := by
  unfold audio_chain add_audio
  by_cases ha : probe.audio = []
  · simp only [ha, if_pos rfl, if_neg (by simp : ¬ (["aevalsrc=0:channel_layout=2:duration=" ++ rstr (o - s) ++ ":sample_rate=48000"] = ([] : List String)))]
    refine ⟨by simp, Or.inl ?_⟩
    exact headChar_joinComma_cons _ (headChar_append _ (headChar_append _ rfl))
  · simp only [if_neg ha, if_pos rfl]
    refine ⟨by simp, Or.inr ?_⟩
    exact headChar_joinComma_cons _ rfl

/-- Shape of the non-dummy argument vector: one video filter_complex pair,
one audio filter_complex pair, the logo map and the audio map; the two
filter strings are recognisable by their first character. -/
theorem build_nondummy_shape (pc : PreComp) (fs : String → Bool)
    (duration seek out : ℚ) (ad ad_last ad_next : Bool) (probe : Probe) :
    ∃ v a : String,
      build_filtergraph pc fs duration seek out ad ad_last ad_next false probe =
        ["-filter_complex", v, "-filter_complex", a,
          "-map", "[logo]", "-map", "[a]"] ∧
      headChar v = some '[' ∧
      (headChar a = some 'a' ∨ headChar a = some '[') := by
  have hne := (audio_chain_head pc probe duration
    (if out > duration then 0 else seek) out).1
  have hhd := (audio_chain_head pc probe duration
    (if out > duration then 0 else seek) out).2
  have heq : build_filtergraph pc fs duration seek out ad ad_last ad_next false probe
      = ["-filter_complex",
          "[0:v]" ++
            (if video_chain pc probe duration (if out > duration then 0 else seek) out
                ≠ [] then
              joinComma (video_chain pc probe duration
                (if out > duration then 0 else seek) out) ++ "[v]"
            else "null[v]") ++ ";" ++
            overlay_filter pc fs (out - (if out > duration then 0 else seek))
              ad ad_last ad_next,
          "-filter_complex",
          joinComma (audio_chain pc probe duration
            (if out > duration then 0 else seek) out) ++ "[a]",
          "-map", "[logo]", "-map", "[a]"] := by
    simp only [build_filtergraph, Bool.false_eq_true, if_false]
    rw [if_pos hne]
    rfl
  refine ⟨_, _, heq,
    headChar_append _ (headChar_append _ (headChar_append _ rfl)), ?_⟩
  rcases hhd with h | h
  · exact Or.inl (headChar_append _ h)
  · exact Or.inr (headChar_append _ h)

/-- A sample probe with one audio and one video stream, matching the target
format. -/
def sampleProbe : Probe :=
  ⟨"clip.mp4", [⟨some 30⟩], [⟨1024, 576, 1.778, 25, some "progressive", some 30⟩]⟩

/-- C1 counterexample: on a concrete probed source (is_dummy = false) the
vector contains two -filter_complex arguments (one for the video chain, one
for the audio chain), not one. -/
theorem build_filtergraph_counterexample :
    ¬ (countArg "-filter_complex"
        (build_filtergraph samplePC (fun _ => false) 30 0 30
          false false false false sampleProbe) = 1) := by
  obtain ⟨v, a, he, hv, ha⟩ :=
    build_nondummy_shape samplePC (fun _ => false) 30 0 30 false false false
      sampleProbe
  have hv1 : v ≠ "-filter_complex" := ne_of_headChar (by rw [hv]; decide)
  have ha1 : a ≠ "-filter_complex" := by
    rcases ha with h | h <;> exact ne_of_headChar (by rw [h]; decide)
  rw [he]
  simp [countArg, hv1, ha1]

/-- C1 amended: for every non-dummy invocation the returned vector contains
exactly TWO -filter_complex arguments (video chain and audio chain) and
exactly two -map arguments. -/
theorem build_filtergraph_arg_counts (pc : PreComp) (fs : String → Bool)
    (duration seek out : ℚ) (ad ad_last ad_next : Bool) (probe : Probe) :
    countArg "-filter_complex"
        (build_filtergraph pc fs duration seek out ad ad_last ad_next false probe)
      = 2 ∧
    countArg "-map"
        (build_filtergraph pc fs duration seek out ad ad_last ad_next false probe)
      = 2 := by
  obtain ⟨v, a, he, hv, ha⟩ :=
    build_nondummy_shape pc fs duration seek out ad ad_last ad_next probe
  have hv1 : v ≠ "-filter_complex" := ne_of_headChar (by rw [hv]; decide)
  have hv2 : v ≠ "-map" := ne_of_headChar (by rw [hv]; decide)
  have ha1 : a ≠ "-filter_complex" := by
    rcases ha with h | h <;> exact ne_of_headChar (by rw [h]; decide)
  have ha2 : a ≠ "-map" := by
    rcases ha with h | h <;> exact ne_of_headChar (by rw [h]; decide)
  rw [he]
  constructor <;> simp [countArg, hv1, hv2, ha1, ha2]

/-- C9: for every non-dummy invocation the audio chain is non-empty (the
generated silent source exactly when the probe lists no audio stream,
otherwise the anull chain), the vector maps [a] and never 0:a, and 1:a is
mapped exactly in the dummy case. -/
theorem build_filtergraph_audio_maps (pc : PreComp) (fs : String → Bool)
    (duration seek out : ℚ) (ad ad_last ad_next : Bool) (probe : Probe) :
    audio_chain pc probe duration (if out > duration then 0 else seek) out ≠ [] ∧
    (probe.audio = [] →
      audio_chain pc probe duration (if out > duration then 0 else seek) out =
        ["aevalsrc=0:channel_layout=2:duration=" ++
          rstr (out - (if out > duration then 0 else seek)) ++ ":sample_rate=48000"]) ∧
    (probe.audio ≠ [] →
      ∃ rest, audio_chain pc probe duration (if out > duration then 0 else seek) out
        = "[0:a]anull" :: rest) ∧
    ["-map", "[a]"] <:+:
      build_filtergraph pc fs duration seek out ad ad_last ad_next false probe ∧
    "0:a" ∉
      build_filtergraph pc fs duration seek out ad ad_last ad_next false probe ∧
    "1:a" ∉
      build_filtergraph pc fs duration seek out ad ad_last ad_next false probe ∧
    ["-map", "1:a"] <:+:
      build_filtergraph pc fs duration seek out ad ad_last ad_next true probe := by
  obtain ⟨v, a, he, hv, ha⟩ :=
    build_nondummy_shape pc fs duration seek out ad ad_last ad_next probe
  have hv0 : v ≠ "0:a" := ne_of_headChar (by rw [hv]; decide)
  have ha0 : a ≠ "0:a" := by
    rcases ha with h | h <;> exact ne_of_headChar (by rw [h]; decide)
  have hv1 : v ≠ "1:a" := ne_of_headChar (by rw [hv]; decide)
  have ha1 : a ≠ "1:a" := by
    rcases ha with h | h <;> exact ne_of_headChar (by rw [h]; decide)
  refine ⟨(audio_chain_head pc probe duration
      (if out > duration then 0 else seek) out).1, ?_, ?_, ?_, ?_, ?_, ?_⟩
  · intro hnoa
    unfold audio_chain add_audio
    simp [hnoa]
  · intro hsome
    unfold audio_chain add_audio
    simp [hsome]
  · rw [he]
    exact ⟨["-filter_complex", v, "-filter_complex", a, "-map", "[logo]"], [],
      by simp⟩
  · rw [he]
    simp [hv0.symm, ha0.symm]
  · rw [he]
    simp [hv1.symm, ha1.symm]
  · have heq2 : build_filtergraph pc fs duration seek out ad ad_last ad_next true
        probe =
        ["-filter_complex",
          "[0:v]" ++ "null[v]" ++ ";" ++
            overlay_filter pc fs (out - (if out > duration then 0 else seek))
              ad ad_last ad_next,
          "-map", "[logo]", "-map", "1:a"] := by
      simp only [build_filtergraph]
      simp
    rw [heq2]
    exact ⟨["-filter_complex",
      "[0:v]" ++ "null[v]" ++ ";" ++
        overlay_filter pc fs (out - (if out > duration then 0 else seek))
          ad ad_last ad_next, "-map", "[logo]"], [], by simp⟩

/-
Prefix helpers for recognising pad and setdar filters inside a chain.
-/

/-- String prefix predicate on code points. -/
def hasPrefixStr (p s : String) : Prop := p.data <+: s.data

instance (p s : String) : Decidable (hasPrefixStr p s) := by
  unfold hasPrefixStr; infer_instance

theorem hasPrefixStr_append (p s t : String) (h : hasPrefixStr p s) :
    hasPrefixStr p (s ++ t) := by
  unfold hasPrefixStr at *
  rw [sdata_append]
  exact h.trans (List.prefix_append _ _)

theorem not_hasPrefix_head {p s : String} {c d : Char} {cs ds : List Char}
    (hp : p.data = c :: cs) (hs : s.data = d :: ds) (h : c ≠ d) :
    ¬ hasPrefixStr p s := by
  unfold hasPrefixStr
  rw [hp, hs]
  intro hpre
  exact h (List.cons_prefix_cons.mp hpre).1

theorem not_hasPrefix_head2 {p s : String} {c c2 d2 : Char} {cs ds : List Char}
    (hp : p.data = c :: c2 :: cs) (hs : s.data = c :: d2 :: ds) (h : c2 ≠ d2) :
    ¬ hasPrefixStr p s := by
  unfold hasPrefixStr
  rw [hp, hs]
  intro hpre
  exact h (List.cons_prefix_cons.mp (List.cons_prefix_cons.mp hpre).2).1

/-- Every deinterlace element is the yadif string. -/
theorem deinterlace_shape (probe : Probe) :
    ∀ s ∈ deinterlace_filter probe, s = "yadif=0:-1:0" := by
  intro s hs
  unfold deinterlace_filter at hs
  split at hs
  · split_ifs at hs <;> simpa using hs
  · simp at hs

/-- Every fps element is the framerate string. -/
theorem fps_shape (pc : PreComp) (probe : Probe) :
    ∀ s ∈ fps_filter pc probe, s = "framerate=fps=" ++ toString pc.fps := by
  intro s hs
  unfold fps_filter at hs
  split_ifs at hs <;> simpa using hs

/-- With a close aspect, pad_filter is empty. -/
theorem pad_filter_eq_nil (pc : PreComp) (probe : Probe)
    (h : math_isclose probe.video.headI.aspect pc.aspect 0.03) :
    pad_filter pc probe = [] := by
  unfold pad_filter
  exact if_neg (not_not_intro h)

/-- With a close aspect, every scale element is the scale string. -/
theorem scale_shape_close (pc : PreComp) (probe : Probe)
    (h : math_isclose probe.video.headI.aspect pc.aspect 0.03) :
    ∀ s ∈ scale_filter pc probe,
      s = "scale=" ++ toString pc.w ++ ":" ++ toString pc.h := by
  intro s hs
  unfold scale_filter at hs
  rw [if_neg (not_not_intro h), List.append_nil] at hs
  split_ifs at hs <;> simpa using hs

/-- Every extend_video element is a tpad string. -/
theorem extend_video_shape (probe : Probe) (d t : ℚ) :
    ∀ s ∈ extend_video probe d t,
      ∃ q, s = "tpad=stop_mode=add:stop_duration=" ++ rstr q := by
  intro s hs
  unfold extend_video at hs
  split at hs
  · split_ifs at hs <;> simp at hs
    exact ⟨_, hs⟩
  · simp at hs

/-- Every fade element is a fade-in or fade-out string on the given track. -/
theorem fade_shape (d sk o : ℚ) (track : String) :
    ∀ s ∈ fade_filter d sk o track,
      s = track ++ "fade=in:st=0:d=0.5" ∨
        ∃ q, s = track ++ "fade=out:st=" ++ rstr q ++ ":d=1.0" := by
  intro s hs
  unfold fade_filter at hs
  rcases List.mem_append.mp hs with hs | hs <;> split_ifs at hs <;> simp at hs
  · exact Or.inl hs
  · exact Or.inr ⟨_, hs⟩

/-- With a close aspect, the video chain contains neither a pad filter nor a
setdar filter. -/
theorem video_chain_no_pad_of_close (pc : PreComp) (probe : Probe) (d sk o : ℚ)
    (h : math_isclose probe.video.headI.aspect pc.aspect 0.03) :
    ∀ s ∈ video_chain pc probe d sk o,
      ¬ hasPrefixStr "pad=" s ∧ ¬ hasPrefixStr "setdar=" s := by
  intro s hs
  unfold video_chain at hs
  rw [pad_filter_eq_nil pc probe h, List.append_nil] at hs
  rcases List.mem_append.mp hs with hs | hs
  rcases List.mem_append.mp hs with hs | hs
  rcases List.mem_append.mp hs with hs | hs
  rcases List.mem_append.mp hs with hs | hs
  · rw [deinterlace_shape probe s hs]
    exact ⟨not_hasPrefix_head rfl rfl (by decide),
      not_hasPrefix_head rfl rfl (by decide)⟩
  · rw [fps_shape pc probe s hs]
    exact ⟨not_hasPrefix_head rfl rfl (by decide),
      not_hasPrefix_head rfl rfl (by decide)⟩
  · rw [scale_shape_close pc probe h s hs]
    exact ⟨not_hasPrefix_head rfl rfl (by decide),
      not_hasPrefix_head2 rfl rfl (by decide)⟩
  · obtain ⟨q, hq⟩ := extend_video_shape probe d (o - sk) s hs
    rw [hq]
    exact ⟨not_hasPrefix_head rfl rfl (by decide),
      not_hasPrefix_head rfl rfl (by decide)⟩
  · rcases fade_shape d sk o "" s hs with hq | ⟨q, hq⟩ <;> rw [hq]
    · exact ⟨not_hasPrefix_head rfl rfl (by decide),
        not_hasPrefix_head rfl rfl (by decide)⟩
    · exact ⟨not_hasPrefix_head rfl rfl (by decide),
        not_hasPrefix_head rfl rfl (by decide)⟩

/-- With a non-close aspect and a narrower source, pad_filter is the
pillarbox string. -/
theorem pad_filter_lt (pc : PreComp) (probe : Probe)
    (hnc : ¬ math_isclose probe.video.headI.aspect pc.aspect 0.03)
    (hlt : probe.video.headI.aspect < pc.aspect) :
    pad_filter pc probe =
      ["pad=ih*" ++ toString pc.w ++ "/" ++ toString pc.h ++
        "/sar:ih:(ow-iw)/2:(oh-ih)/2"] := by
  unfold pad_filter
  rw [if_pos hnc, if_pos hlt]

/-- With a non-close aspect and a wider source, pad_filter is the letterbox
string. -/
theorem pad_filter_gt (pc : PreComp) (probe : Probe)
    (hnc : ¬ math_isclose probe.video.headI.aspect pc.aspect 0.03)
    (hgt : pc.aspect < probe.video.headI.aspect) :
    pad_filter pc probe =
      ["pad=iw:iw*" ++ toString pc.h ++ "/" ++ toString pc.w ++
        "/sar:(ow-iw)/2:(oh-ih)/2"] := by
  unfold pad_filter
  rw [if_pos hnc, if_neg (not_lt.mpr (le_of_lt hgt)), if_pos hgt]

/-- With a non-close aspect, the setdar string is in scale_filter. -/
theorem setdar_mem_scale (pc : PreComp) (probe : Probe)
    (hnc : ¬ math_isclose probe.video.headI.aspect pc.aspect 0.03) :
    ("setdar=dar=" ++ rstr pc.aspect) ∈ scale_filter pc probe := by
  unfold scale_filter
  rw [if_pos hnc]
  exact List.mem_append_right _ (List.mem_singleton_self _)

/-- C4 amended: with Python's isclose tolerance
max(1e-09*max(abs a, abs A), 0.03) in place of the claimed bare 0.03: if the
probed aspect is within the tolerance of the target, the video chain has no
pad and no setdar filter; beyond the tolerance both are present, and the pad
orientation (pad=ih* pillarbox for a < A, pad=iw: letterbox for a > A)
matches the sign of a - A. -/
theorem pad_setdar_spec (pc : PreComp) (probe : Probe) (duration seek out : ℚ) :
    (math_isclose probe.video.headI.aspect pc.aspect 0.03 →
      ∀ s ∈ video_chain pc probe duration seek out,
        ¬ hasPrefixStr "pad=" s ∧ ¬ hasPrefixStr "setdar=" s) ∧
    (¬ math_isclose probe.video.headI.aspect pc.aspect 0.03 →
      (∃ s ∈ video_chain pc probe duration seek out, hasPrefixStr "pad=" s) ∧
      (∃ s ∈ video_chain pc probe duration seek out, hasPrefixStr "setdar=" s) ∧
      (probe.video.headI.aspect < pc.aspect →
        ∃ s ∈ video_chain pc probe duration seek out, hasPrefixStr "pad=ih*" s) ∧
      (pc.aspect < probe.video.headI.aspect →
        ∃ s ∈ video_chain pc probe duration seek out, hasPrefixStr "pad=iw:" s)) := by
  constructor
  · exact fun h => video_chain_no_pad_of_close pc probe duration seek out h
  · intro hnc
    have hsd : ∃ s ∈ video_chain pc probe duration seek out,
        hasPrefixStr "setdar=" s := by
      refine ⟨"setdar=dar=" ++ rstr pc.aspect, ?_, ?_⟩
      · have hm := setdar_mem_scale pc probe hnc
        unfold video_chain
        simp only [List.mem_append]
        tauto
      · exact hasPrefixStr_append _ _ _ (by decide)
    rcases lt_trichotomy probe.video.headI.aspect pc.aspect with hlt | heq | hgt
    · have hp : ("pad=ih*" ++ toString pc.w ++ "/" ++ toString pc.h ++
          "/sar:ih:(ow-iw)/2:(oh-ih)/2") ∈ video_chain pc probe duration seek out := by
        unfold video_chain
        rw [pad_filter_lt pc probe hnc hlt]
        simp
      refine ⟨⟨_, hp, ?_⟩, hsd, fun _ => ⟨_, hp, ?_⟩,
        fun hc => absurd hc (not_lt.mpr (le_of_lt hlt))⟩
      · exact hasPrefixStr_append _ _ _ (hasPrefixStr_append _ _ _
          (hasPrefixStr_append _ _ _ (hasPrefixStr_append _ _ _ (by decide))))
      · exact hasPrefixStr_append _ _ _ (hasPrefixStr_append _ _ _
          (hasPrefixStr_append _ _ _ (hasPrefixStr_append _ _ _ (by decide))))
    · exact absurd (by rw [heq]; unfold math_isclose; simp) hnc
    · have hp : ("pad=iw:iw*" ++ toString pc.h ++ "/" ++ toString pc.w ++
          "/sar:(ow-iw)/2:(oh-ih)/2") ∈ video_chain pc probe duration seek out := by
        unfold video_chain
        rw [pad_filter_gt pc probe hnc hgt]
        simp
      refine ⟨⟨_, hp, ?_⟩, hsd, fun hc => absurd hc (not_lt.mpr (le_of_lt hgt)),
        fun _ => ⟨_, hp, ?_⟩⟩
      · exact hasPrefixStr_append _ _ _ (hasPrefixStr_append _ _ _
          (hasPrefixStr_append _ _ _ (hasPrefixStr_append _ _ _ (by decide))))
      · exact hasPrefixStr_append _ _ _ (hasPrefixStr_append _ _ _
          (hasPrefixStr_append _ _ _ (hasPrefixStr_append _ _ _ (by decide))))

/-- Configuration for the C4 counterexample: a huge target aspect so that
Python's relative isclose tolerance exceeds the claimed absolute 0.03. -/
def cePC : PreComp :=
  ⟨1024, 576, 40000000 + 1/25, 25, false, "logo.png", "0.7", "null", false,
    -23, -3, 7, "http"⟩

/-- Probe for the C4 counterexample: probed aspect 40000000. -/
def ceProbe : Probe :=
  ⟨"clip.mp4", [⟨some 30⟩], [⟨1024, 576, 40000000, 25, none, none⟩]⟩

/-- C4 counterexample: probed aspect a = 40000000 and target A = 40000000.04
differ by 0.04 > 0.03, yet math.isclose (whose default relative tolerance
1e-09*max(|a|,|A|) is about 0.04000000004 here) reports them close, so the
chain contains no pad and no setdar filter, contradicting the claim. -/
theorem pad_filter_counterexample :
    |(40000000 : ℚ) - (40000000 + 1/25)| > 0.03 ∧
    ∀ s ∈ video_chain cePC ceProbe 30 0 30,
      ¬ hasPrefixStr "pad=" s ∧ ¬ hasPrefixStr "setdar=" s := by
  constructor
  · rw [abs_of_nonpos (by norm_num)]
    norm_num
  · apply video_chain_no_pad_of_close
    show math_isclose 40000000 (40000000 + 1/25) 0.03
    unfold math_isclose
    rw [abs_of_nonpos (by norm_num : (40000000:ℚ) - (40000000 + 1/25) ≤ 0),
      abs_of_nonneg (by norm_num : (0:ℚ) ≤ 40000000),
      abs_of_nonneg (by norm_num : (0:ℚ) ≤ 40000000 + 1/25),
      max_eq_right (by norm_num : (40000000:ℚ) ≤ 40000000 + 1/25),
      max_eq_left (by norm_num :
        (0.03:ℚ) ≤ 1/1000000000 * (40000000 + 1/25))]
    norm_num

/-- C4 witness: at matching aspects the chain of a concrete clip carries no
pad and no setdar filter. -/
theorem pad_setdar_spec_witness :
    ∀ s ∈ video_chain samplePC sampleProbe 30 0 30,
      ¬ hasPrefixStr "pad=" s ∧ ¬ hasPrefixStr "setdar=" s :=
  (pad_setdar_spec samplePC sampleProbe 30 0 30).1
    (by norm_num [math_isclose, samplePC, sampleProbe, List.headI])

/-- Gap invariant of the shuffle history: the last_played FIFO is always a
recent-suffix of the emission sequence and, once warmed up, holds at least
n/2 entries; hence two equal emissions are more than n/2 apart. past is the
list of emissions so far, fifo the current history. -/
theorem shuffle_gap (n : ℕ) :
    ∀ (cs fifo past : List String), fifo.Nodup → fifo <:+ past →
      (past.length ≤ fifo.length ∨ n / 2 ≤ fifo.length) →
      ∀ i j : ℕ, ∀ c : String, i < j → past.length ≤ j →
        (past ++ shuffle_emits n fifo cs)[i]? = some c →
        (past ++ shuffle_emits n fifo cs)[j]? = some c →
        n / 2 + 1 ≤ j - i := by
  intro cs
  induction cs with
  | nil =>
    intro fifo past hnd hsuf hlen i j c hij hpj hi hj
    simp only [shuffle_emits, List.append_nil] at hj
    obtain ⟨hjl, _⟩ := List.getElem?_eq_some.mp hj
    omega
  | cons x cs ih =>
    intro fifo past hnd hsuf hlen i j c hij hpj hi hj
    obtain ⟨f, hf, hstep⟩ : ∃ f,
        (f = if n < 2 * fifo.length then fifo.tail else fifo) ∧
        shuffle_emits n fifo (x :: cs) =
          if x ∈ f then shuffle_emits n f cs
          else x :: shuffle_emits n (f ++ [x]) cs :=
      ⟨_, rfl, rfl⟩
    have hfnd : f.Nodup := by
      rw [hf]; split_ifs
      · exact (List.tail_sublist fifo).nodup hnd
      · exact hnd
    have hfsuf : f <:+ past := by
      rw [hf]; split_ifs
      · exact (List.tail_suffix fifo).trans hsuf
      · exact hsuf
    have hflen : past.length ≤ f.length ∨ n / 2 ≤ f.length := by
      rw [hf]; split_ifs with hp
      · right
        rw [List.length_tail]
        omega
      · exact hlen
    by_cases hmem : x ∈ f
    · rw [hstep, if_pos hmem] at hi hj
      exact ih f past hfnd hfsuf hflen i j c hij hpj hi hj
    · rw [hstep, if_neg hmem] at hi hj
      rw [show past ++ x :: shuffle_emits n (f ++ [x]) cs =
          (past ++ [x]) ++ shuffle_emits n (f ++ [x]) cs by simp] at hi hj
      have hnd2 : (f ++ [x]).Nodup := by
        simp [List.nodup_append, hfnd, hmem]
      have hsuf2 : f ++ [x] <:+ past ++ [x] := by
        obtain ⟨t, ht⟩ := hfsuf
        exact ⟨t, by rw [← ht]; simp⟩
      have hlen2 : (past ++ [x]).length ≤ (f ++ [x]).length ∨
          n / 2 ≤ (f ++ [x]).length := by
        simp only [List.length_append, List.length_singleton]
        omega
      rcases Nat.lt_or_ge j (past.length + 1) with hj1 | hj1
      · have hjeq : j = past.length := by omega
        have hjx : ((past ++ [x]) ++ shuffle_emits n (f ++ [x]) cs)[j]?
            = some x := by
          rw [List.getElem?_append_left (by simp [hjeq])]
          rw [List.getElem?_append_right (by omega)]
          simp [hjeq]
        have hcx : c = x := by
          rw [hj] at hjx
          exact Option.some.inj hjx
        have hip : past[i]? = some c := by
          rw [List.getElem?_append_left (by simp; omega),
            List.getElem?_append_left (by omega)] at hi
          exact hi
        obtain ⟨t, ht⟩ := hfsuf
        have hit : i < t.length := by
          by_contra hcon
          push_neg at hcon
          have hfi : f[i - t.length]? = some c := by
            rw [← ht] at hip
            rwa [List.getElem?_append_right hcon] at hip
          obtain ⟨hlt, hgot⟩ := List.getElem?_eq_some.mp hfi
          exact hmem (hcx ▸ hgot ▸ List.getElem_mem hlt)
        have hlength : t.length + f.length = past.length := by
          rw [← ht]; simp
        rcases hflen with hp1 | hp1 <;> omega
      · exact ih (f ++ [x]) (past ++ [x]) hnd2 hsuf2 hlen2 i j c hij
          (by simp; omega) hi hj

/-- C7: shuffle anti-repeat: for a store of size N >= 2 and any stream of
random choices drawn from it, every window of N/2 + 1 consecutive emitted
clips contains each path at most once. -/
theorem shuffle_anti_repeat (store cs : List String) (hN : 2 ≤ store.length)
    (hcs : ∀ c ∈ cs, c ∈ store) (k : ℕ) :
    (((shuffle_emits store.length [] cs).drop k).take
      (store.length / 2 + 1)).Nodup := by
  have hgap := shuffle_gap store.length cs [] [] List.nodup_nil
    (List.suffix_refl _) (Or.inl le_rfl)
  rw [List.nodup_iff_getElem?_ne_getElem?]
  intro u v huv hvlen heq
  have hw : v < store.length / 2 + 1 := by
    have := List.length_take_le (store.length / 2 + 1)
      ((shuffle_emits store.length [] cs).drop k)
    omega
  have hvsome := List.getElem?_eq_getElem hvlen
  set c := (((shuffle_emits store.length [] cs).drop k).take
    (store.length / 2 + 1))[v] with hc
  have hu : (((shuffle_emits store.length [] cs).drop k).take
      (store.length / 2 + 1))[u]? = some c := by rw [heq, hvsome]
  have hu2 : (shuffle_emits store.length [] cs)[k + u]? = some c := by
    rw [← List.getElem?_drop]
    rw [← List.getElem?_take_of_lt (by omega : u < store.length / 2 + 1)]
    exact hu
  have hv2 : (shuffle_emits store.length [] cs)[k + v]? = some c := by
    rw [← List.getElem?_drop]
    rw [← List.getElem?_take_of_lt hw]
    exact hvsome
  have hfin := hgap (k + u) (k + v) c (by omega) (by simp)
    (by simpa using hu2) (by simpa using hv2)
  have hfin2 : store.length / 2 + 1 ≤ (k + v) - (k + u) := hfin
  omega

/-- C7 witness: a concrete shuffle run over a two-element store. -/
theorem shuffle_anti_repeat_witness :
    (((shuffle_emits (["a", "b"].length) [] ["a", "a", "b"]).drop 0).take
      (["a", "b"].length / 2 + 1)).Nodup :=
  shuffle_anti_repeat ["a", "b"] ["a", "a", "b"] (by decide) (by decide) 0
